import Mathlib

/-!
# Verification of the ANDES `PowerSystem` orchestration core

Shallow embedding of `src/andes/system.py` (class `PowerSystem`) together
with the parts of its collaborators (`DAE`, `Line.connectivity`) that the
specification describes but whose bodies are outside the excerpt.

Modelling conventions:
* Python lists become Lean `List`s; numeric entries of the DAE arrays are `ℚ`.
* Heterogeneous Python tuples/rows become lists of a `Value` sum type.
* Log output (`self.Log.error` / `self.Log.info`) is modelled as a list of
  structured `LogMsg` entries carrying exactly the counters interpolated
  into the source format strings.
* Methods that mutate `self` return the updated state explicitly.
-/

namespace Andes

/-- A heterogeneous cell of a result row: ANDES result rows mix external
indices (ints), names (strings) and rounded numeric quantities (`ℚ`). -/
inductive Value where
  | i (z : Int)
  | s (t : String)
  | q (x : ℚ)
deriving DecidableEq, Repr

/-- Structured log messages, one constructor per `Log.error` / `Log.info`
call site in `system.py`, carrying the counters the format strings embed. -/
inductive LogMsg where
  /-- line 209: `'<Line> device not found.'` -/
  | lineNotFound
  /-- line 214: `'System is interconnected.'` -/
  | interconnected
  /-- lines 216-217: `'System contains {:d} islands and {:d} islanded buses.'` -/
  | islandCount (nIslands nIslandedBuses : Nat)
  /-- line 232: `'Slack bus is not defined for {:g} island(s).'` -/
  | noSlackError (n : Nat)
  /-- line 234: `'Multiple slack buses are defined for {:g} island(s).'` -/
  | multiSlackError (n : Nat)
  /-- line 236: `'Each island has a slack bus correctly defined.'` -/
  | slackOk
  /-- lines 241 and 262: `'Power flow not solved when getting bus data.'` -/
  | notSolvedBusData
  /-- line 272: `'Power flow not solved when getting line data.'` -/
  | notSolvedLineData
deriving DecidableEq, Repr

/-- Result of a `get_*data` query: either the unsolved sentinel
`tuple([False] * 7)` or the generator of result columns. -/
inductive QueryResult where
  /-- the `return tuple([False] * 7)` branch -/
  | sentinel (flags : List Bool)
  /-- the `return (list(x) for x in zip(*sorted(...)))` branch, expanded -/
  | data (cols : List (List Value))
deriving DecidableEq, Repr

/-- Result of `get_nodedata`, which has one more early exit: the bare
`return` (Python `None`) when the DC Node model has zero instances. -/
inductive NodeQueryResult where
  /-- the bare `return` at line 260 (Python `None`) -/
  | none
  | sentinel (flags : List Bool)
  | data (cols : List (List Value))
deriving DecidableEq, Repr

/-- The `Bus` device model: instance count, external indices, names, the
positions of its voltage-magnitude/angle variables inside `DAE.y`, the
generation/load accumulators, the `uid` map from external index to internal
position, and the island fields written by `Line.connectivity`. -/
structure BusModel where
  n : Nat
  idx : List Int
  name : List String
  v : List Nat
  a : List Nat
  Pg : List ℚ
  Qg : List ℚ
  Pl : List ℚ
  Ql : List ℚ
  uid : List (Int × Nat)
  islanded_buses : List Nat
  island_sets : List (List Nat)
deriving DecidableEq, Repr

/-- The `Line` device model: external indices, terminal buses, online
status, and the solved complex terminal power flows (as real/imag pairs). -/
structure LineModel where
  n : Nat
  idx : List Int
  bus1 : List Int
  bus2 : List Int
  u : List Bool
  S1 : List (ℚ × ℚ)
  S2 : List (ℚ × ℚ)
deriving DecidableEq, Repr

/-- The DC `Node` device model. -/
structure NodeModel where
  n : Nat
  idx : List Int
  name : List String
  v : List Nat
deriving DecidableEq, Repr

/-- The `SW` (slack/swing generator) model: the external indices of the
buses its devices sit on. -/
structure SWModel where
  bus : List Int
deriving DecidableEq, Repr

/-- Power-flow routine record: the `solved` flag and the degree/radian
display preference read by `get_busdata`. -/
structure SPFModel where
  solved : Bool
  usedegree : Bool
deriving DecidableEq, Repr

/-- The DAE container's algebraic-variable array `y` (the only DAE array
the result extractors read). -/
structure DAEModel where
  y : List ℚ
deriving DecidableEq, Repr

/-- Global settings consulted by the orchestration core. -/
structure SettingsModel where
  /-- `Settings.base`: the "convert parameters to system base" switch. -/
  base : Bool
deriving DecidableEq, Repr

/-- The slice of the `PowerSystem` state the verified methods touch.
`hasLine` models `hasattr(self, 'Line')`. -/
structure PowerSystem where
  Bus : BusModel
  Line : LineModel
  Node : NodeModel
  SW : SWModel
  SPF : SPFModel
  DAE : DAEModel
  Settings : SettingsModel
  hasLine : Bool
deriving DecidableEq, Repr

/-! ## `setup` / `to_sysbase` (lines 92-107): step traces -/

/-- One observable step of the `setup` sequence. `convertBase d` is the
`param_to_sysbase()` call on device `d` inside `to_sysbase`. -/
inductive SetupEvent where
  | sortDevice
  | callSetup
  | devSetup
  | xyAddr0
  | daeSetup
  | convertBase (device : String)
deriving DecidableEq, Repr

/-- `to_sysbase` (lines 101-107): converts every registered device's
parameters to the system base, guarded by `Settings.base`. The trace holds
one `convertBase` event per device, in registry order. -/
def to_sysbase (base : Bool) (devices : List String) : List SetupEvent :=
  if base then devices.map SetupEvent.convertBase else []

/-- `setup` (lines 92-99): the ordered trace of steps
`sort_device; Call.setup; dev_setup; xy_addr0; DAE.setup; to_sysbase`. -/
def setupTrace (base : Bool) (devices : List String) : List SetupEvent :=
  [SetupEvent.sortDevice, SetupEvent.callSetup, SetupEvent.devSetup,
   SetupEvent.xyAddr0, SetupEvent.daeSetup] ++ to_sysbase base devices

/-- `true` iff the event is a parameter-conversion event. -/
def SetupEvent.isConvert : SetupEvent → Bool
  | .convertBase _ => true
  | _ => false

/-! ## `DAE.init1` (line 183): the post-power-flow reshape

The body of `DAE.init1` lives in `andes/variables/dae.py`, outside the
excerpt; only its call site (`self.DAE.init1()` in `td_init`) is present. -/

/-- Grow a DAE array to `nTotal` entries, keeping existing entries at
their offsets and zero-filling the appended region. -/
def growZero (arr : List ℚ) (nTotal : Nat) : List ℚ :=
  arr ++ List.replicate (nTotal - arr.length) 0

/-- The four global DAE arrays. -/
structure DAEArrays where
  x : List ℚ
  y : List ℚ
  f : List ℚ
  g : List ℚ
deriving DecidableEq, Repr

/-- Modelled from the spec: the body of `DAE.init1` (the post-power-flow
reshape invoked from `td_init`, called `reinit_postflow(n_total_vars)` in
the spec) is in `andes/variables/dae.py`, not in the excerpt.  Per spec
§4.5 it "grows the arrays to the new total size, copying all existing
entries to their original offsets and zero-filling the newly appended
region".  `nx` / `ny` are the new total state / algebraic sizes. -/
def reinit_postflow (d : DAEArrays) (nx ny : Nat) : DAEArrays :=
  { x := growZero d.x nx
    y := growZero d.y ny
    f := growZero d.f nx
    g := growZero d.g ny }

/-! ## Result extractors (lines 238-283) -/

/-- Python's built-in `round(x, dec)`: round half to even at `dec`
decimal places (modelled exactly on `ℚ`). -/
def pyround (x : ℚ) (dec : Nat) : ℚ :=
  let s : ℚ := x * (10 ^ dec : ℚ)
  let fl : Int := Int.floor s
  let r : ℚ := s - (fl : ℚ)
  let n : Int :=
    if r < 1 / 2 then fl
    else if 1 / 2 < r then fl + 1
    else if fl % 2 = 0 then fl else fl + 1
  (n : ℚ) / (10 ^ dec : ℚ)

/-- The `rad2deg` constant from `andes/consts.py` (a floating-point
approximation of `180 / π`; its exact value is irrelevant to the claims,
a fixed rational stand-in for the float is used). -/
def rad2deg : ℚ := 5729577951308232 / 100000000000000

/-- Total order on `Value` used as the sort key.  `sorted(..., key=itemgetter(0))`
only ever compares the external-index cells (all of the same constructor);
the cross-constructor cases extend it to a total transitive order so the
sortedness statement is well formed. -/
def Value.le : Value → Value → Bool
  | .i a, .i b => a ≤ b
  | .i _, _ => true
  | .s _, .i _ => false
  | .s a, .s b => a ≤ b
  | .s _, .q _ => true
  | .q a, .q b => a ≤ b
  | .q _, _ => false

/-- Row comparison for `sorted(..., key=itemgetter(0))`: compare first
cells. -/
def rowLe (r s : List Value) : Bool :=
  Value.le (r.headD (Value.i 0)) (s.headD (Value.i 0))

/-- Python `zip(*cols)` applied to a list of lists: truncates to the
shortest input; `zip()` of no inputs is empty.  Used both to build rows
from columns and (applied to the sorted row list) to rebuild columns,
exactly as `zip(*sorted(zip(...)))` does. -/
def pyZip (cols : List (List Value)) : List (List Value) :=
  match cols with
  | [] => []
  | c :: cs =>
    let m := cs.foldl (fun a l => min a l.length) c.length
    (List.range m).map (fun i => (c :: cs).map (fun l => l.getD i (Value.i 0)))

/-- The eight bus-result columns of `get_busdata` (lines 243-254):
`idx, names, Vm, Va, Pg, Qg, Pl, Ql` in source order. -/
def busCols (sys : PowerSystem) (dec : Nat) : List (List Value) :=
  let y := fun (x : Nat) => sys.DAE.y.getD x 0
  [sys.Bus.idx.map Value.i,
   sys.Bus.name.map Value.s,
   sys.Bus.v.map (fun x => Value.q (pyround (y x) dec)),
   if sys.SPF.usedegree then
     sys.Bus.a.map (fun x => Value.q (pyround (y x * rad2deg) dec))
   else
     sys.Bus.a.map (fun x => Value.q (pyround (y x) dec)),
   (List.range sys.Bus.n).map (fun x => Value.q (pyround (sys.Bus.Pg.getD x 0) dec)),
   (List.range sys.Bus.n).map (fun x => Value.q (pyround (sys.Bus.Qg.getD x 0) dec)),
   (List.range sys.Bus.n).map (fun x => Value.q (pyround (sys.Bus.Pl.getD x 0) dec)),
   (List.range sys.Bus.n).map (fun x => Value.q (pyround (sys.Bus.Ql.getD x 0) dec))]

/-- `get_busdata` (lines 238-255). -/
def get_busdata (sys : PowerSystem) (dec : Nat) : QueryResult × List LogMsg :=
  if !sys.SPF.solved then
    (QueryResult.sentinel (List.replicate 7 false), [LogMsg.notSolvedBusData])
  else
    (QueryResult.data (pyZip ((pyZip (busCols sys dec)).mergeSort rowLe)), [])

/-- The three node-result columns of `get_nodedata` (lines 264-266). -/
def nodeCols (sys : PowerSystem) (dec : Nat) : List (List Value) :=
  [sys.Node.idx.map Value.i,
   sys.Node.name.map Value.s,
   sys.Node.v.map (fun x => Value.q (pyround (sys.DAE.y.getD x 0) dec))]

/-- `get_nodedata` (lines 257-267): returns `None` when the DC node model
has zero instances (Python `if not self.Node.n: return`), before the
solved-flag check; the unsolved branch reuses the "bus data" message. -/
def get_nodedata (sys : PowerSystem) (dec : Nat) : NodeQueryResult × List LogMsg :=
  if sys.Node.n = 0 then
    (NodeQueryResult.none, [])
  else if !sys.SPF.solved then
    (NodeQueryResult.sentinel (List.replicate 7 false), [LogMsg.notSolvedBusData])
  else
    (NodeQueryResult.data (pyZip ((pyZip (nodeCols sys dec)).mergeSort rowLe)), [])

/-- The nine line-result columns of `get_linedata` (lines 274-282):
`idx, fr, to, Pfr, Qfr, Pto, Qto, Ploss, Qloss`; the losses are the sums of
the already-rounded terminal flows. -/
def lineCols (sys : PowerSystem) (dec : Nat) : List (List Value) :=
  let Pfr := (List.range sys.Line.n).map (fun x => pyround (sys.Line.S1.getD x (0, 0)).1 dec)
  let Qfr := (List.range sys.Line.n).map (fun x => pyround (sys.Line.S1.getD x (0, 0)).2 dec)
  let Pto := (List.range sys.Line.n).map (fun x => pyround (sys.Line.S2.getD x (0, 0)).1 dec)
  let Qto := (List.range sys.Line.n).map (fun x => pyround (sys.Line.S2.getD x (0, 0)).2 dec)
  [sys.Line.idx.map Value.i,
   sys.Line.bus1.map Value.i,
   sys.Line.bus2.map Value.i,
   Pfr.map Value.q, Qfr.map Value.q, Pto.map Value.q, Qto.map Value.q,
   (List.zipWith (· + ·) Pfr Pto).map Value.q,
   (List.zipWith (· + ·) Qfr Qto).map Value.q]

/-- `get_linedata` (lines 269-283). -/
def get_linedata (sys : PowerSystem) (dec : Nat) : QueryResult × List LogMsg :=
  if !sys.SPF.solved then
    (QueryResult.sentinel (List.replicate 7 false), [LogMsg.notSolvedLineData])
  else
    (QueryResult.data (pyZip ((pyZip (lineCols sys dec)).mergeSort rowLe)), [])

/-! ## `init_pf` (lines 162-167): phase-0 init gating -/

/-- The loop of `init_pf` (lines 165-167): iterate
`zip(devices, Call.pflow, Call.init0)` and invoke `init0` on a device
exactly when both flags are true.  Returns the trace of devices whose
`init0` is invoked, in iteration (registry) order. -/
def init_pf_init0_calls (devices : List String) (pflow init0 : List Bool) :
    List String :=
  ((devices.zip pflow).zip init0).filterMap
    (fun e => if e.1.2 && e.2 then some e.1.1 else none)

/-! ## `check_islands` (lines 206-236) and `Line.connectivity`

The body of `Line.connectivity` lives in `andes/models/line.py`, outside the
excerpt; `check_islands` calls it and then reads the `islanded_buses` and
`island_sets` attributes it stores on the `Bus` model. -/

/-- `self.Bus.uid[item]`: external bus index to internal position. -/
def uidLookup (uid : List (Int × Nat)) (k : Int) : Nat :=
  (uid.lookup k).getD 0

/-- Merge into one component all current components touched by edge `e`. -/
def mergeComps (comps : List (List Nat)) (e : Nat × Nat) : List (List Nat) :=
  let touches := fun (c : List Nat) => decide (e.1 ∈ c) || decide (e.2 ∈ c)
  match comps.filter touches with
  | [] => comps
  | joined => joined.flatten :: comps.filter (fun c => !touches c)

/-- Modelled from the spec: the body of `Line.connectivity` is in
`andes/models/line.py`, not in the excerpt.  Per spec §4.6 it builds the
undirected graph whose nodes are bus positions and whose edges are
in-service lines, computes connected components, and produces the set of
islanded (singleton-component) buses and the list of multi-bus islands.
Returns `(islanded_buses, island_sets)`. -/
def connectivity (nBus : Nat) (edges : List (Nat × Nat)) :
    List Nat × List (List Nat) :=
  let comps := edges.foldl mergeComps ((List.range nBus).map (fun i => [i]))
  ((comps.filter (fun c => c.length ≤ 1)).flatten,
   comps.filter (fun c => 2 ≤ c.length))

/-- The edge list induced by in-service lines, with terminal buses mapped
through `Bus.uid` to internal positions. -/
def lineEdges (sys : PowerSystem) : List (Nat × Nat) :=
  ((sys.Line.bus1.zip sys.Line.bus2).zip sys.Line.u).filterMap
    (fun e => if e.2 then
        some (uidLookup sys.Bus.uid e.1.1, uidLookup sys.Bus.uid e.1.2)
      else none)

/-- The loop body of lines 222-225: `nosw = 1`, decremented once for each
`SW` device whose bus position lies in the island. -/
def noswValue (swPos : List Nat) (island : List Nat) : Int :=
  swPos.foldl (fun acc p => if p ∈ island then acc - 1 else acc) 1

/-- Lines 219-229: classify each island (by enumeration index) into the
no-slack list (`nosw == 1`) or the multi-slack list (`nosw < 0`).
Returns `(nosw_island, msw_island)`. -/
def classifyIslands (islandSets : List (List Nat)) (swPos : List Nat) :
    List Nat × List Nat :=
  islandSets.enum.foldl
    (fun acc p =>
      let v := noswValue swPos p.2
      if v = 1 then (acc.1 ++ [p.1], acc.2)
      else if v < 0 then (acc.1, acc.2 ++ [p.1])
      else acc)
    ([], [])

/-- The number of `SW` devices whose bus position lies in the island
(the quantity `1 - nosw` of the source loop). -/
def slackCount (swPos : List Nat) (island : List Nat) : Nat :=
  (swPos.filter (fun p => decide (p ∈ island))).length

/-- The bus positions of the slack devices: `self.Bus.uid[item]` for
`item in self.SW.bus` (line 223-224). -/
def swPositions (sys : PowerSystem) : List Nat :=
  sys.SW.bus.map (uidLookup sys.Bus.uid)

/-- `check_islands` (lines 206-236).  Returns the updated system state
(the island partition `Line.connectivity` stores on the `Bus` model) and
the log trace.  Note line 234 interpolates `len(nosw_island)` into the
multiple-slack message. -/
def check_islands (sys : PowerSystem) : PowerSystem × List LogMsg :=
  if !sys.hasLine then
    (sys, [LogMsg.lineNotFound])
  else
    let islanded := (connectivity sys.Bus.n (lineEdges sys)).1
    let sets := (connectivity sys.Bus.n (lineEdges sys)).2
    let sys' := { sys with Bus := { sys.Bus with islanded_buses := islanded,
                                                 island_sets := sets } }
    let nosw := (classifyIslands sets (swPositions sys')).1
    let msw := (classifyIslands sets (swPositions sys')).2
    let log1 :=
      if islanded.length = 0 ∧ sets.length = 0 then [LogMsg.interconnected]
      else [LogMsg.islandCount sets.length islanded.length]
    let log2 := if nosw ≠ [] then [LogMsg.noSlackError nosw.length] else []
    let log3 :=
      if msw ≠ [] then [LogMsg.multiSlackError nosw.length]
      else [LogMsg.slackOk]
    (sys', log1 ++ log2 ++ log3)

/-! ## Helper lemmas -/

/-- Specification of one grown DAE array: new length, preserved prefix,
zero-filled suffix. -/
def GrowSpec (old new : List ℚ) (n : Nat) : Prop :=
  new.length = n ∧
  (∀ i, i < old.length → new[i]? = old[i]?) ∧
  (∀ i, old.length ≤ i → i < n → new[i]? = some 0)

lemma growZero_spec (l : List ℚ) (n : Nat) (h : l.length ≤ n) :
    GrowSpec l (growZero l n) n := by
  refine ⟨?_, ?_, ?_⟩
  · simp [growZero]
    omega
  · intro i hi
    exact List.getElem?_append_left hi
  · intro i h1 h2
    rw [growZero, List.getElem?_append_right h1, List.getElem?_replicate,
      if_pos (by omega)]

/-! ## Sample systems used by witnesses -/

/-- An empty power system with the power flow not solved. -/
def sysUnsolved : PowerSystem :=
  { Bus := ⟨0, [], [], [], [], [], [], [], [], [], [], []⟩
    Line := ⟨0, [], [], [], [], [], []⟩
    Node := ⟨0, [], [], []⟩
    SW := ⟨[]⟩
    SPF := ⟨false, false⟩
    DAE := ⟨[]⟩
    Settings := ⟨true⟩
    hasLine := true }

/-! ## Claim theorems -/

/-- **C2** (counterexample): the claim says device-parameter conversion to
the system base runs before pre-power-flow index allocation; in the code,
`setup` calls `to_sysbase` last, after `xy_addr0`.  With the conversion
setting enabled and one device, the conversion event (position 5) follows
the index-allocation step (position 3). -/
theorem setup_convert_before_indexing_cex :
    ¬ (∀ (i j : Nat),
        (setupTrace true ["Bus"])[i]? = some (SetupEvent.convertBase "Bus") →
        (setupTrace true ["Bus"])[j]? = some SetupEvent.xyAddr0 → i < j) := by
  intro h
  have h53 := h 5 3 (by decide) (by decide)
  omega

lemma mem_to_sysbase {base : Bool} {devices : List String} {e : SetupEvent}
    (h : e ∈ to_sysbase base devices) : ∃ d, e = SetupEvent.convertBase d := by
  rw [to_sysbase] at h
  split at h
  · rcases List.mem_map.mp h with ⟨d, _, rfl⟩
    exact ⟨d, rfl⟩
  · simp at h

lemma xyAddr0_pos {base : Bool} {devices : List String} {i : Nat}
    (h : (setupTrace base devices)[i]? = some SetupEvent.xyAddr0) : i = 3 := by
  by_cases hi : i < 5
  · interval_cases i
    · simp [setupTrace] at h
    · simp [setupTrace] at h
    · simp [setupTrace] at h
    · rfl
    · simp [setupTrace] at h
  · exfalso
    rw [setupTrace, List.getElem?_append_right (by simp; omega)] at h
    have hm : SetupEvent.xyAddr0 ∈ to_sysbase base devices :=
      List.getElem?_mem h
    rcases mem_to_sysbase hm with ⟨d, hd⟩
    simp at hd

lemma convert_pos {base : Bool} {devices : List String} {j : Nat} {e : SetupEvent}
    (h : (setupTrace base devices)[j]? = some e) (hc : e.isConvert = true) :
    5 ≤ j := by
  by_cases hj : j < 5
  · exfalso
    interval_cases j <;>
      (simp [setupTrace] at h; subst h; simp [SetupEvent.isConvert] at hc)
  · omega

/-- **C2** (amended): within one setup run, the index-allocation step
strictly precedes every parameter-conversion event (conversion is the
final phase of `setup`, not a step before indexing); conversion events
occur only when the `Settings.base` switch is enabled, and when it is
enabled every registered device is converted. -/
theorem setup_convert_after_indexing (base : Bool) (devices : List String) :
    (∀ (i j : Nat), (setupTrace base devices)[i]? = some SetupEvent.xyAddr0 →
        ∀ (e : SetupEvent), (setupTrace base devices)[j]? = some e →
        e.isConvert = true → i < j) ∧
    (∀ e ∈ setupTrace base devices, e.isConvert = true → base = true) ∧
    (base = true →
      ∀ d ∈ devices, SetupEvent.convertBase d ∈ setupTrace base devices) := by
  refine ⟨?_, ?_, ?_⟩
  · intro i j hi e hj hc
    have h1 := xyAddr0_pos hi
    have h2 := convert_pos hj hc
    omega
  · intro e he hc
    cases base
    · exfalso
      simp [setupTrace, to_sysbase] at he
      rcases he with h | h | h | h | h <;> simp [h, SetupEvent.isConvert] at hc
    · rfl
  · intro hb d hd
    subst hb
    rw [setupTrace]
    refine List.mem_append_right _ ?_
    rw [to_sysbase, if_pos rfl]
    exact List.mem_map_of_mem _ hd

/-- Witness for `setup_convert_after_indexing` at `base = true`,
`devices = ["Bus"]`: the index-allocation step sits at position 3, the
conversion event at position 5, and the theorem yields `3 < 5`. -/
theorem setup_convert_after_indexing_witness :
    (setupTrace true ["Bus"])[3]? = some SetupEvent.xyAddr0 ∧
    (setupTrace true ["Bus"])[5]? = some (SetupEvent.convertBase "Bus") ∧
    (SetupEvent.convertBase "Bus").isConvert = true ∧ (3 : Nat) < 5 :=
  ⟨by decide, by decide, by decide,
    (setup_convert_after_indexing true ["Bus"]).1 3 5 (by decide)
      (SetupEvent.convertBase "Bus") (by decide) (by decide)⟩

/-- **C3**: the post-power-flow reshape `DAE.init1` (spec name
`reinit_postflow`) grows each DAE array to the new total size, preserves
every entry present before the growth at its identical offset, and
zero-fills the newly appended region. -/
theorem reinit_postflow_frame (d : DAEArrays) (nx ny : Nat)
    (hx : d.x.length ≤ nx) (hy : d.y.length ≤ ny)
    (hf : d.f.length ≤ nx) (hg : d.g.length ≤ ny) :
    GrowSpec d.x (reinit_postflow d nx ny).x nx ∧
    GrowSpec d.y (reinit_postflow d nx ny).y ny ∧
    GrowSpec d.f (reinit_postflow d nx ny).f nx ∧
    GrowSpec d.g (reinit_postflow d nx ny).g ny :=
  ⟨growZero_spec _ _ hx, growZero_spec _ _ hy,
   growZero_spec _ _ hf, growZero_spec _ _ hg⟩

/-- Witness for `reinit_postflow_frame` on concrete arrays:
`x = [1, 2]` grown to 4 entries, `y = [3]` grown to 3 entries. -/
theorem reinit_postflow_frame_witness :
    ((2 : Nat) ≤ 4 ∧ (1 : Nat) ≤ 3) ∧
    (GrowSpec [1, 2] (reinit_postflow ⟨[1, 2], [3], [4, 5], [6]⟩ 4 3).x 4 ∧
     GrowSpec [3] (reinit_postflow ⟨[1, 2], [3], [4, 5], [6]⟩ 4 3).y 3 ∧
     GrowSpec [4, 5] (reinit_postflow ⟨[1, 2], [3], [4, 5], [6]⟩ 4 3).f 4 ∧
     GrowSpec [6] (reinit_postflow ⟨[1, 2], [3], [4, 5], [6]⟩ 4 3).g 3) :=
  ⟨⟨by omega, by omega⟩,
    reinit_postflow_frame ⟨[1, 2], [3], [4, 5], [6]⟩ 4 3
      (by simp) (by simp) (by simp) (by simp)⟩

/-- **C4**: whenever the power-flow solved flag is false, `get_busdata`
and `get_linedata` log the not-solved condition and return the unsolved
sentinel `tuple([False] * 7)`; both are total functions of the state, so
no failure escapes the caller boundary. -/
theorem get_data_unsolved_sentinel (sys : PowerSystem) (dec : Nat)
    (h : sys.SPF.solved = false) :
    get_busdata sys dec =
      (QueryResult.sentinel (List.replicate 7 false), [LogMsg.notSolvedBusData]) ∧
    get_linedata sys dec =
      (QueryResult.sentinel (List.replicate 7 false), [LogMsg.notSolvedLineData]) := by
  constructor <;> simp [get_busdata, get_linedata, h]

/-- Witness for `get_data_unsolved_sentinel` on the unsolved sample
system. -/
theorem get_data_unsolved_sentinel_witness :
    sysUnsolved.SPF.solved = false ∧
    (get_busdata sysUnsolved 5 =
      (QueryResult.sentinel (List.replicate 7 false), [LogMsg.notSolvedBusData]) ∧
     get_linedata sysUnsolved 5 =
      (QueryResult.sentinel (List.replicate 7 false), [LogMsg.notSolvedLineData])) :=
  ⟨rfl, get_data_unsolved_sentinel sysUnsolved 5 rfl⟩

/-- **C9**: with zero DC `Node` instances, `get_nodedata` returns `None`
(the bare `return`) for every input, with an empty log — no error is
logged and no `False`-filled sentinel is produced — regardless of the
power-flow solved flag (which the early exit never consults). -/
theorem get_nodedata_no_instances (sys : PowerSystem) (dec : Nat)
    (h : sys.Node.n = 0) :
    get_nodedata sys dec = (NodeQueryResult.none, []) := by
  simp [get_nodedata, h]

/-- Witness for `get_nodedata_no_instances`: the unsolved sample system
has zero nodes and an unsolved power flow, yet `get_nodedata` returns
`None` with no log. -/
theorem get_nodedata_no_instances_witness :
    sysUnsolved.Node.n = 0 ∧
    get_nodedata sysUnsolved 5 = (NodeQueryResult.none, []) :=
  ⟨rfl, get_nodedata_no_instances sysUnsolved 5 rfl⟩

lemma init_pf_calls_cons (dv : String) (ds : List String) (pv : Bool)
    (ps : List Bool) (iv : Bool) (js : List Bool) :
    init_pf_init0_calls (dv :: ds) (pv :: ps) (iv :: js) =
      if pv && iv then dv :: init_pf_init0_calls ds ps js
      else init_pf_init0_calls ds ps js := by
  rw [init_pf_init0_calls, init_pf_init0_calls]
  simp only [List.zip_cons_cons, List.filterMap_cons]
  by_cases h : (pv && iv) = true <;> simp [h]

lemma init_pf_calls_sublist (devices : List String) (pflow init0 : List Bool) :
    List.Sublist (init_pf_init0_calls devices pflow init0) devices := by
  induction devices generalizing pflow init0 with
  | nil => simp [init_pf_init0_calls]
  | cons dv ds ih =>
    cases pflow with
    | nil => simp [init_pf_init0_calls]
    | cons pv ps =>
      cases init0 with
      | nil => simp [init_pf_init0_calls]
      | cons iv js =>
        rw [init_pf_calls_cons]
        by_cases h : (pv && iv) = true
        · rw [if_pos h]
          exact (ih ps js).cons₂ dv
        · rw [if_neg h]
          exact (ih ps js).cons dv

lemma init_pf_calls_mem (devices : List String) :
    ∀ (pflow init0 : List Bool), devices.Nodup →
      ∀ (k : Nat) (d : String) (p i0 : Bool),
        devices[k]? = some d → pflow[k]? = some p → init0[k]? = some i0 →
        (d ∈ init_pf_init0_calls devices pflow init0 ↔
          p = true ∧ i0 = true) := by
  induction devices with
  | nil =>
    intro pflow init0 _ k d p i0 hd _ _
    simp at hd
  | cons dv ds ih =>
    intro pflow init0 hnd k d p i0 hd hp hi
    obtain ⟨hdvnotin, hndtail⟩ := List.nodup_cons.mp hnd
    cases pflow with
    | nil => simp at hp
    | cons pv ps =>
      cases init0 with
      | nil => simp at hi
      | cons iv js =>
        rw [init_pf_calls_cons]
        cases k with
        | zero =>
          simp only [List.getElem?_cons_zero, Option.some.injEq] at hd hp hi
          subst hd hp hi
          by_cases hpj : (pv && iv) = true
          · rw [if_pos hpj]
            constructor
            · intro _
              exact Bool.and_eq_true_iff.mp hpj
            · intro _
              exact List.mem_cons_self dv _
          · rw [if_neg hpj]
            constructor
            · intro hmem
              exact absurd ((init_pf_calls_sublist ds ps js).subset hmem)
                hdvnotin
            · rintro ⟨h1, h2⟩
              simp [h1, h2] at hpj
        | succ kk =>
          simp only [List.getElem?_cons_succ] at hd hp hi
          have hdne : d ≠ dv := by
            intro he
            exact hdvnotin (he ▸ List.getElem?_mem hd)
          by_cases hpj : (pv && iv) = true
          · rw [if_pos hpj, List.mem_cons]
            simp only [hdne, false_or]
            exact ih ps js hndtail kk d p i0 hd hp hi
          · rw [if_neg hpj]
            exact ih ps js hndtail kk d p i0 hd hp hi

/-- **C8**: in the `init_pf` loop, the device at registry position `k` has
its phase-0 init routine invoked iff both its participates-in-power-flow
flag and its has-phase0-init flag are true, and the invocation trace
follows registry order (it is a sublist of the registry). -/
theorem init_pf_phase0_gating (devices : List String) (pflow init0 : List Bool)
    (hnd : devices.Nodup) :
    (∀ (k : Nat) (d : String) (p i0 : Bool),
        devices[k]? = some d → pflow[k]? = some p → init0[k]? = some i0 →
        (d ∈ init_pf_init0_calls devices pflow init0 ↔
          p = true ∧ i0 = true)) ∧
    List.Sublist (init_pf_init0_calls devices pflow init0) devices :=
  ⟨init_pf_calls_mem devices pflow init0 hnd,
   init_pf_calls_sublist devices pflow init0⟩

/-- Witness for `init_pf_phase0_gating`: three registered devices, of
which only the first has both flags set; its `init0` is invoked. -/
theorem init_pf_phase0_gating_witness :
    (["Bus", "Line", "PQ"] : List String).Nodup ∧
    ("Bus" ∈ init_pf_init0_calls ["Bus", "Line", "PQ"] [true, true, false]
        [true, false, true] ↔ true = true ∧ true = true) :=
  ⟨by decide,
   (init_pf_phase0_gating ["Bus", "Line", "PQ"] [true, true, false]
      [true, false, true] (by decide)).1 0 "Bus" true true rfl rfl rfl⟩

/-! ## Island classification lemmas -/

lemma foldl_sub_filter (l island : List Nat) (a : Int) :
    l.foldl (fun acc p => if p ∈ island then acc - 1 else acc) a =
      a - ((l.filter (fun p => decide (p ∈ island))).length : Int) := by
  induction l generalizing a with
  | nil => simp
  | cons p ps ih =>
    rw [List.foldl_cons, List.filter_cons]
    by_cases h : p ∈ island
    · rw [if_pos h, if_pos (by simpa using h), ih]
      simp only [List.length_cons]
      push_cast
      ring
    · rw [if_neg h, if_neg (by simpa using h), ih]

/-- The source loop value `nosw` equals one minus the number of slack
devices inside the island. -/
lemma noswValue_eq_sub (sw island : List Nat) :
    noswValue sw island = 1 - (slackCount sw island : Int) := by
  rw [noswValue, slackCount]
  exact foldl_sub_filter sw island 1

lemma classify_foldl (sw : List Nat) (l : List (Nat × List Nat))
    (a b : List Nat) :
    l.foldl (fun acc p =>
      let v := noswValue sw p.2
      if v = 1 then (acc.1 ++ [p.1], acc.2)
      else if v < 0 then (acc.1, acc.2 ++ [p.1])
      else acc) (a, b) =
    (a ++ (l.filter (fun p => decide (noswValue sw p.2 = 1))).map Prod.fst,
     b ++ (l.filter (fun p => decide (noswValue sw p.2 < 0))).map Prod.fst) := by
  induction l generalizing a b with
  | nil => simp
  | cons hd tl ih =>
    rw [List.foldl_cons, List.filter_cons, List.filter_cons]
    by_cases h1 : noswValue sw hd.2 = 1
    · rw [ih]
      simp [h1, List.append_assoc]
    · by_cases h2 : noswValue sw hd.2 < 0
      · rw [ih]
        simp [h1, h2, List.append_assoc]
      · rw [ih]
        simp [h1, h2]

lemma classifyIslands_eq (islandSets : List (List Nat)) (sw : List Nat) :
    classifyIslands islandSets sw =
      ((islandSets.enum.filter
          (fun p => decide (noswValue sw p.2 = 1))).map Prod.fst,
       (islandSets.enum.filter
          (fun p => decide (noswValue sw p.2 < 0))).map Prod.fst) := by
  rw [classifyIslands, classify_foldl]
  simp

lemma mem_classify_fst {s : List (List Nat)} {P : Nat × List Nat → Bool}
    {i : Nat} {island : List Nat} (hi : s[i]? = some island) :
    i ∈ (s.enum.filter P).map Prod.fst ↔ P (i, island) = true := by
  constructor
  · intro h
    rcases List.mem_map.mp h with ⟨p, hp, hfst⟩
    rcases List.mem_filter.mp hp with ⟨hpe, hPp⟩
    have hg : s[p.1]? = some p.2 := List.mk_mem_enum_iff_getElem?.mp hpe
    rw [hfst, hi] at hg
    have hsnd : p.2 = island := by
      injection hg.symm
    rw [← hfst, ← hsnd]
    exact hPp
  · intro hP
    exact List.mem_map.mpr ⟨(i, island), List.mem_filter.mpr
      ⟨List.mk_mem_enum_iff_getElem?.mpr hi, hP⟩, rfl⟩

lemma swPositions_update (sys : PowerSystem) (isl : List Nat)
    (sets : List (List Nat)) :
    swPositions { sys with Bus := { sys.Bus with islanded_buses := isl,
                                                 island_sets := sets } } =
      swPositions sys := rfl

/-! ## Sample systems for the island claims -/

/-- Six-bus system forming three two-bus islands; both slack devices sit
in the island holding positions 0 and 1, so exactly one island is
multi-slack and two islands have no slack. -/
def sysC1 : PowerSystem :=
  { Bus := { n := 6, idx := [1, 2, 3, 4, 5, 6], name := [], v := [], a := [],
             Pg := [], Qg := [], Pl := [], Ql := [],
             uid := [(1, 0), (2, 1), (3, 2), (4, 3), (5, 4), (6, 5)],
             islanded_buses := [], island_sets := [] }
    Line := { n := 3, idx := [1, 2, 3], bus1 := [1, 3, 5], bus2 := [2, 4, 6],
              u := [true, true, true], S1 := [], S2 := [] }
    Node := ⟨0, [], [], []⟩
    SW := ⟨[1, 2]⟩
    SPF := ⟨true, false⟩
    DAE := ⟨[]⟩
    Settings := ⟨true⟩
    hasLine := true }

/-- Four-bus system forming two two-bus islands; the single slack device
sits at position 0, so one island has exactly one slack and the other has
none. -/
def sysC6 : PowerSystem :=
  { Bus := { n := 4, idx := [1, 2, 3, 4], name := [], v := [], a := [],
             Pg := [], Qg := [], Pl := [], Ql := [],
             uid := [(1, 0), (2, 1), (3, 2), (4, 3)],
             islanded_buses := [], island_sets := [] }
    Line := { n := 2, idx := [1, 2], bus1 := [1, 3], bus2 := [2, 4],
              u := [true, true], S1 := [], S2 := [] }
    Node := ⟨0, [], [], []⟩
    SW := ⟨[1]⟩
    SPF := ⟨true, false⟩
    DAE := ⟨[]⟩
    Settings := ⟨true⟩
    hasLine := true }

/-- **C1** (code defect at line 234): on a partition with exactly one
multi-slack island and two no-slack islands, `check_islands` emits the
multiple-slack error diagnostic carrying the no-slack island count
`len(nosw_island) = 2` instead of the multi-slack island count 1; the
correctly keyed diagnostic never appears.  The report is a log entry and
the routine still returns its result, so the check itself is non-fatal. -/
theorem check_islands_multislack_miscount :
    (check_islands sysC1).2 =
      [LogMsg.islandCount 3 0, LogMsg.noSlackError 2,
       LogMsg.multiSlackError 2] ∧
    (classifyIslands (connectivity sysC1.Bus.n (lineEdges sysC1)).2
        (swPositions sysC1)).2.length = 1 ∧
    LogMsg.multiSlackError 1 ∉ (check_islands sysC1).2 := by
  refine ⟨by decide, by decide, by decide⟩

/-- **C5** (counterexample): `check_islands` is not a persistence-free
pure read — the island partition computed by `Line.connectivity` is
stored on the `Bus` device model, so the returned state differs from
the input state. -/
theorem check_islands_mutates_bus_cex :
    sysC1.Bus.island_sets = [] ∧
    (check_islands sysC1).1.Bus.island_sets = [[4, 5], [2, 3], [0, 1]] ∧
    (check_islands sysC1).1 ≠ sysC1 := by
  refine ⟨rfl, by decide, by decide⟩

/-- **C5** (amended): `check_islands` mutates no device data except the
island partition fields that `Line.connectivity` stores on the `Bus`
model: every other `Bus` field and every other device model is unchanged,
and the stored partition is recomputed from the current bus/line topology
on each invocation (it does not depend on previously stored island
state). -/
theorem check_islands_frame (sys : PowerSystem) (hL : sys.hasLine = true) :
    ((check_islands sys).1.Bus.n = sys.Bus.n ∧
     (check_islands sys).1.Bus.idx = sys.Bus.idx ∧
     (check_islands sys).1.Bus.name = sys.Bus.name ∧
     (check_islands sys).1.Bus.v = sys.Bus.v ∧
     (check_islands sys).1.Bus.a = sys.Bus.a ∧
     (check_islands sys).1.Bus.Pg = sys.Bus.Pg ∧
     (check_islands sys).1.Bus.Qg = sys.Bus.Qg ∧
     (check_islands sys).1.Bus.Pl = sys.Bus.Pl ∧
     (check_islands sys).1.Bus.Ql = sys.Bus.Ql ∧
     (check_islands sys).1.Bus.uid = sys.Bus.uid) ∧
    ((check_islands sys).1.Line = sys.Line ∧
     (check_islands sys).1.Node = sys.Node ∧
     (check_islands sys).1.SW = sys.SW ∧
     (check_islands sys).1.SPF = sys.SPF ∧
     (check_islands sys).1.DAE = sys.DAE ∧
     (check_islands sys).1.Settings = sys.Settings) ∧
    ((check_islands sys).1.Bus.island_sets =
        (connectivity sys.Bus.n (lineEdges sys)).2 ∧
     (check_islands sys).1.Bus.islanded_buses =
        (connectivity sys.Bus.n (lineEdges sys)).1) := by
  simp [check_islands, hL]

/-- Witness for `check_islands_frame` on the four-bus sample system. -/
theorem check_islands_frame_witness :
    sysC6.hasLine = true ∧
    (check_islands sysC6).1.Bus.uid = sysC6.Bus.uid ∧
    (check_islands sysC6).1.Line = sysC6.Line ∧
    (check_islands sysC6).1.Bus.island_sets =
      (connectivity sysC6.Bus.n (lineEdges sysC6)).2 :=
  ⟨rfl, (check_islands_frame sysC6 rfl).1.2.2.2.2.2.2.2.2.2,
   (check_islands_frame sysC6 rfl).2.1.1,
   (check_islands_frame sysC6 rfl).2.2.1⟩

/-- Explicit form of `check_islands` when the `Line` device exists:
the stored partition and the three log segments.  (`swPositions` of the
updated state coincides definitionally with `swPositions` of the input,
since the update touches neither `SW.bus` nor `Bus.uid`.) -/
lemma check_islands_log_eq (sys : PowerSystem) (hL : sys.hasLine = true) :
    (check_islands sys).2 =
      (if (connectivity sys.Bus.n (lineEdges sys)).1.length = 0 ∧
          (connectivity sys.Bus.n (lineEdges sys)).2.length = 0 then
        [LogMsg.interconnected]
      else
        [LogMsg.islandCount (connectivity sys.Bus.n (lineEdges sys)).2.length
          (connectivity sys.Bus.n (lineEdges sys)).1.length]) ++
      (if (classifyIslands (connectivity sys.Bus.n (lineEdges sys)).2
            (swPositions sys)).1 ≠ [] then
        [LogMsg.noSlackError (classifyIslands
          (connectivity sys.Bus.n (lineEdges sys)).2 (swPositions sys)).1.length]
      else []) ++
      (if (classifyIslands (connectivity sys.Bus.n (lineEdges sys)).2
            (swPositions sys)).2 ≠ [] then
        [LogMsg.multiSlackError (classifyIslands
          (connectivity sys.Bus.n (lineEdges sys)).2 (swPositions sys)).1.length]
      else [LogMsg.slackOk]) := by
  obtain ⟨bus, line, node, sw, spf, dae, st, hl⟩ := sys
  cases hl
  · simp at hL
  · rfl

/-- **C6**: an island of the computed partition lands in the no-slack
error list exactly when zero slack devices fall inside it; an island with
exactly one slack lands in neither error list; and a no-slack error
diagnostic with count `k` is logged iff `k` is the (positive) number of
zero-slack islands. -/
theorem check_islands_noslack_classification (sys : PowerSystem)
    (hL : sys.hasLine = true) :
    (∀ (i : Nat) (island : List Nat),
        (connectivity sys.Bus.n (lineEdges sys)).2[i]? = some island →
        ((i ∈ (classifyIslands (connectivity sys.Bus.n (lineEdges sys)).2
                (swPositions sys)).1 ↔
            slackCount (swPositions sys) island = 0) ∧
         (slackCount (swPositions sys) island = 1 →
            i ∉ (classifyIslands (connectivity sys.Bus.n (lineEdges sys)).2
                  (swPositions sys)).1 ∧
            i ∉ (classifyIslands (connectivity sys.Bus.n (lineEdges sys)).2
                  (swPositions sys)).2))) ∧
    (∀ (k : Nat), LogMsg.noSlackError k ∈ (check_islands sys).2 ↔
        (k = (classifyIslands (connectivity sys.Bus.n (lineEdges sys)).2
                (swPositions sys)).1.length ∧ 0 < k)) := by
  constructor
  · intro i island hi
    have hval := noswValue_eq_sub (swPositions sys) island
    have hmem1 : i ∈ (classifyIslands
        (connectivity sys.Bus.n (lineEdges sys)).2 (swPositions sys)).1 ↔
        noswValue (swPositions sys) island = 1 := by
      rw [classifyIslands_eq]
      simpa using @mem_classify_fst (connectivity sys.Bus.n (lineEdges sys)).2
        (fun p => decide (noswValue (swPositions sys) p.2 = 1)) i island hi
    have hmem2 : i ∈ (classifyIslands
        (connectivity sys.Bus.n (lineEdges sys)).2 (swPositions sys)).2 ↔
        noswValue (swPositions sys) island < 0 := by
      rw [classifyIslands_eq]
      simpa using @mem_classify_fst (connectivity sys.Bus.n (lineEdges sys)).2
        (fun p => decide (noswValue (swPositions sys) p.2 < 0)) i island hi
    refine ⟨?_, ?_⟩
    · rw [hmem1, hval]
      omega
    · intro hc1
      refine ⟨?_, ?_⟩
      · rw [hmem1, hval, hc1]
        omega
      · rw [hmem2, hval, hc1]
        omega
  · intro k
    rw [check_islands_log_eq sys hL]
    by_cases h2 : (classifyIslands (connectivity sys.Bus.n (lineEdges sys)).2
        (swPositions sys)).1 = []
    · rw [h2]
      split_ifs <;> simp_all [List.mem_append]
    · have hpos : 0 < (classifyIslands
          (connectivity sys.Bus.n (lineEdges sys)).2
          (swPositions sys)).1.length := List.length_pos.mpr h2
      split_ifs <;> simp_all [List.mem_append]

/-! ## Sorting and transpose lemmas for the result extractors -/

lemma Value.le_trans' : ∀ (a b c : Value),
    Value.le a b = true → Value.le b c = true → Value.le a c = true := by
  rintro (a | a | a) (b | b | b) (c | c | c) h1 h2 <;>
    simp [Value.le] at h1 h2 ⊢ <;>
    exact le_trans h1 h2

lemma Value.le_total' : ∀ (a b : Value),
    (Value.le a b || Value.le b a) = true := by
  rintro (a | a | a) (b | b | b) <;> simp [Value.le] <;>
    first
    | exact le_total a b
    | exact le_total a.data b.data

lemma rowLe_trans' : ∀ (a b c : List Value),
    rowLe a b = true → rowLe b c = true → rowLe a c = true := by
  intro a b c h1 h2
  exact Value.le_trans' _ _ _ h1 h2

lemma rowLe_total' : ∀ (a b : List Value), (rowLe a b || rowLe b a) = true := by
  intro a b
  exact Value.le_total' _ _

lemma pyZip_mem_length {cols : List (List Value)} {r : List Value}
    (h : r ∈ pyZip cols) : r.length = cols.length := by
  match cols with
  | [] => simp [pyZip] at h
  | c :: cs =>
    simp only [pyZip] at h
    rcases List.mem_map.mp h with ⟨j, hj, rfl⟩
    simp

lemma foldl_min_all_eq (cs : List (List Value)) (L : Nat)
    (h : ∀ r ∈ cs, r.length = L) :
    cs.foldl (fun acc l => min acc l.length) L = L := by
  induction cs with
  | nil => rfl
  | cons c cs ih =>
    rw [List.foldl_cons, h c (List.mem_cons_self c cs), Nat.min_self]
    exact ih (fun r hr => h r (List.mem_cons_of_mem c hr))

lemma pyZip_length_uniform {cols : List (List Value)} {L : Nat}
    (hc : cols ≠ []) (h : ∀ r ∈ cols, r.length = L) :
    (pyZip cols).length = L := by
  match cols with
  | [] => exact absurd rfl hc
  | c :: cs =>
    simp only [pyZip, List.length_map, List.length_range]
    rw [h c (List.mem_cons_self c cs)]
    exact foldl_min_all_eq cs L (fun r hr => h r (List.mem_cons_of_mem c hr))

lemma pyZip_getElem? {rows : List (List Value)} {L i : Nat}
    (hL : ∀ r ∈ rows, r.length = L) (hne : rows ≠ []) (hi : i < L) :
    (pyZip rows)[i]? = some (rows.map (fun r => r.getD i (Value.i 0))) := by
  match rows with
  | [] => exact absurd rfl hne
  | c :: cs =>
    have hm : cs.foldl (fun a l => min a l.length) c.length = L := by
      rw [hL c (List.mem_cons_self c cs)]
      exact foldl_min_all_eq cs L (fun r hr => hL r (List.mem_cons_of_mem c hr))
    simp only [pyZip, List.getElem?_map, hm]
    rw [List.getElem?_range hi]
    rfl

/-- Well-formedness of the `Bus` model: every per-device list has exactly
`n` entries. -/
def BusModel.wf (b : BusModel) : Prop :=
  b.idx.length = b.n ∧ b.name.length = b.n ∧ b.v.length = b.n ∧
  b.a.length = b.n ∧ b.Pg.length = b.n ∧ b.Qg.length = b.n ∧
  b.Pl.length = b.n ∧ b.Ql.length = b.n

/-- Well-formedness of the `Line` model: every per-device list has exactly
`n` entries. -/
def LineModel.wf (l : LineModel) : Prop :=
  l.idx.length = l.n ∧ l.bus1.length = l.n ∧ l.bus2.length = l.n ∧
  l.S1.length = l.n ∧ l.S2.length = l.n

lemma busCols_count (sys : PowerSystem) (dec : Nat) :
    (busCols sys dec).length = 8 := rfl

lemma lineCols_count (sys : PowerSystem) (dec : Nat) :
    (lineCols sys dec).length = 9 := rfl

lemma busCols_lengths (sys : PowerSystem) (dec : Nat) (hwf : sys.Bus.wf) :
    ∀ c ∈ busCols sys dec, c.length = sys.Bus.n := by
  obtain ⟨h1, h2, h3, h4, h5, h6, h7, h8⟩ := hwf
  intro c hc
  simp only [busCols, List.mem_cons, List.not_mem_nil, or_false] at hc
  rcases hc with rfl | rfl | rfl | rfl | rfl | rfl | rfl | rfl <;>
    (try split) <;> simp [h1, h2, h3, h4, h5, h6, h7, h8]

lemma lineCols_lengths (sys : PowerSystem) (dec : Nat) (hwf : sys.Line.wf) :
    ∀ c ∈ lineCols sys dec, c.length = sys.Line.n := by
  obtain ⟨h1, h2, h3, h4, h5⟩ := hwf
  intro c hc
  simp only [lineCols, List.mem_cons, List.not_mem_nil, or_false] at hc
  rcases hc with rfl | rfl | rfl | rfl | rfl | rfl | rfl | rfl | rfl <;>
    simp [h1, h2, h3, h4, h5]

/-- The success-branch shape shared by `get_busdata` / `get_linedata`:
the result is the transpose of the row list sorted by external index, the
sorted rows are a permutation of the original rows, they are pairwise
ordered by the first cell (the external index), and every result column
is the projection of the same sorted row list (one permutation applied to
all fields).  `k` is the column count. -/
def SortedAligned (rows : List (List Value)) (k : Nat)
    (res : QueryResult) : Prop :=
  res = QueryResult.data (pyZip (rows.mergeSort rowLe)) ∧
  (rows.mergeSort rowLe).Perm rows ∧
  List.Pairwise (fun r s => rowLe r s = true) (rows.mergeSort rowLe) ∧
  (rows ≠ [] → ∀ (j : Nat), j < k →
    (pyZip (rows.mergeSort rowLe))[j]? =
      some ((rows.mergeSort rowLe).map (fun r => r.getD j (Value.i 0))))

lemma sortedAligned_mk (rows : List (List Value)) (k : Nat)
    (hL : ∀ r ∈ rows, r.length = k) :
    SortedAligned rows k
      (QueryResult.data (pyZip (rows.mergeSort rowLe))) := by
  refine ⟨rfl, List.mergeSort_perm rows rowLe,
    List.sorted_mergeSort rowLe_trans' rowLe_total' rows, ?_⟩
  intro hne j hjk
  have hL' : ∀ r ∈ rows.mergeSort rowLe, r.length = k := fun r hr =>
    hL r (List.mem_mergeSort.mp hr)
  have hne' : rows.mergeSort rowLe ≠ [] := by
    intro h0
    apply hne
    have hlen : (rows.mergeSort rowLe).length = rows.length :=
      List.length_mergeSort rows
    rw [h0] at hlen
    exact List.length_eq_zero.mp hlen.symm
  exact pyZip_getElem? hL' hne' hjk

/-- **C7**: on a solved power flow, `get_busdata` and `get_linedata`
return the columns of one row list sorted ascending by the external-index
cell: the sorted rows are a permutation of the original rows, pairwise
ordered by external index, and every output column (names and rounded
quantities included) is a projection of that same sorted row list, so all
fields carry the same permutation. -/
theorem get_data_sorted_aligned (sys : PowerSystem) (dec : Nat)
    (h : sys.SPF.solved = true) :
    SortedAligned (pyZip (busCols sys dec)) 8 (get_busdata sys dec).1 ∧
    SortedAligned (pyZip (lineCols sys dec)) 9 (get_linedata sys dec).1 := by
  have hb : (get_busdata sys dec).1 =
      QueryResult.data (pyZip ((pyZip (busCols sys dec)).mergeSort rowLe)) := by
    simp [get_busdata, h]
  have hl : (get_linedata sys dec).1 =
      QueryResult.data (pyZip ((pyZip (lineCols sys dec)).mergeSort rowLe)) := by
    simp [get_linedata, h]
  rw [hb, hl]
  constructor
  · exact sortedAligned_mk _ 8 (fun r hr => by
      rw [pyZip_mem_length hr, busCols_count])
  · exact sortedAligned_mk _ 9 (fun r hr => by
      rw [pyZip_mem_length hr, lineCols_count])

/-- Solved three-bus, two-line sample system with out-of-order external
indices `[3, 1, 2]`. -/
def sysC7 : PowerSystem :=
  { Bus := { n := 3, idx := [3, 1, 2], name := ["C", "A", "B"],
             v := [3, 4, 5], a := [0, 1, 2],
             Pg := [1, 0, 0], Qg := [0, 0, 0],
             Pl := [0, 1 / 2, 1 / 2], Ql := [0, 0, 0],
             uid := [(3, 0), (1, 1), (2, 2)],
             islanded_buses := [], island_sets := [] }
    Line := { n := 2, idx := [2, 1], bus1 := [3, 1], bus2 := [1, 2],
              u := [true, true],
              S1 := [(1 / 2, 0), (1 / 4, 0)],
              S2 := [(-1 / 2, 0), (-1 / 4, 0)] }
    Node := ⟨0, [], [], []⟩
    SW := ⟨[3]⟩
    SPF := ⟨true, false⟩
    DAE := ⟨[0, -1 / 10, -1 / 5, 1, 99 / 100, 49 / 50]⟩
    Settings := ⟨true⟩
    hasLine := true }

/-- Witness for `get_data_sorted_aligned` on the solved sample system. -/
theorem get_data_sorted_aligned_witness :
    sysC7.SPF.solved = true ∧
    (SortedAligned (pyZip (busCols sysC7 5)) 8 (get_busdata sysC7 5).1 ∧
     SortedAligned (pyZip (lineCols sysC7 5)) 9 (get_linedata sysC7 5).1) :=
  ⟨rfl, get_data_sorted_aligned sysC7 5 rfl⟩

/-- An empty power system whose power flow is flagged solved. -/
def sysSolvedNoBus : PowerSystem :=
  { Bus := ⟨0, [], [], [], [], [], [], [], [], [], [], []⟩
    Line := ⟨0, [], [], [], [], [], []⟩
    Node := ⟨0, [], [], []⟩
    SW := ⟨[]⟩
    SPF := ⟨true, false⟩
    DAE := ⟨[]⟩
    Settings := ⟨true⟩
    hasLine := true }

/-- **C10** (counterexample): the claim says every successful
`get_busdata` call yields 8 aligned sequences; with a solved flag but
zero bus instances the success branch transposes an empty row list —
Python `zip(*[])` — and yields zero sequences. -/
theorem busdata_success_arity_cex :
    (get_busdata sysSolvedNoBus 5).1 = QueryResult.data [] ∧
    ¬ ∃ (cols : List (List Value)),
        (get_busdata sysSolvedNoBus 5).1 = QueryResult.data cols ∧
        cols.length = 8 := by
  have h0 : (get_busdata sysSolvedNoBus 5).1 = QueryResult.data [] := by
    simp [get_busdata, sysSolvedNoBus, busCols, pyZip]
  refine ⟨h0, ?_⟩
  rintro ⟨cols, hc, hlen⟩
  rw [h0] at hc
  injection hc with hc
  rw [← hc] at hlen
  simp at hlen

/-- **C10** (amended): the unsolved sentinel of both functions is the
7-element all-`False` tuple; a successful `get_busdata` yields 8 aligned
sequences whenever at least one bus instance exists (and 0 sequences for
an empty, well-formed-or-not bus model), `get_linedata` likewise yields
9 or 0 — so a success never has the sentinel arity 7. -/
theorem result_arity (sys : PowerSystem) (dec : Nat) :
    (sys.SPF.solved = false →
      (get_busdata sys dec).1 =
        QueryResult.sentinel (List.replicate 7 false) ∧
      (get_linedata sys dec).1 =
        QueryResult.sentinel (List.replicate 7 false) ∧
      (List.replicate 7 false).length = 7) ∧
    (∀ (cols : List (List Value)),
        (get_busdata sys dec).1 = QueryResult.data cols →
        (cols.length = 0 ∨ cols.length = 8) ∧
        (sys.Bus.wf → 1 ≤ sys.Bus.n → cols.length = 8)) ∧
    (∀ (cols : List (List Value)),
        (get_linedata sys dec).1 = QueryResult.data cols →
        (cols.length = 0 ∨ cols.length = 9) ∧
        (sys.Line.wf → 1 ≤ sys.Line.n → cols.length = 9)) := by
  refine ⟨?_, ?_, ?_⟩
  · intro h
    refine ⟨?_, ?_, rfl⟩ <;> simp [get_busdata, get_linedata, h]
  · intro cols hc
    by_cases hs : sys.SPF.solved
    · simp only [get_busdata, hs, Bool.not_true, Bool.false_eq_true,
        if_false] at hc
      injection hc with hc
      subst hc
      have hrows : ∀ r ∈ (pyZip (busCols sys dec)).mergeSort rowLe,
          r.length = 8 := fun r hr => by
        rw [pyZip_mem_length (List.mem_mergeSort.mp hr), busCols_count]
      constructor
      · by_cases hsr : (pyZip (busCols sys dec)).mergeSort rowLe = []
        · left
          rw [hsr]
          rfl
        · right
          exact pyZip_length_uniform hsr hrows
      · intro hwf hn
        have hrlen : (pyZip (busCols sys dec)).length = sys.Bus.n :=
          pyZip_length_uniform (by simp [busCols])
            (busCols_lengths sys dec hwf)
        have hsr : (pyZip (busCols sys dec)).mergeSort rowLe ≠ [] := by
          intro h0
          have hlen : ((pyZip (busCols sys dec)).mergeSort rowLe).length =
              (pyZip (busCols sys dec)).length :=
            List.length_mergeSort (pyZip (busCols sys dec))
          rw [h0, hrlen] at hlen
          simp at hlen
          omega
        exact pyZip_length_uniform hsr hrows
    · simp only [Bool.not_eq_true] at hs
      simp [get_busdata, hs] at hc
  · intro cols hc
    by_cases hs : sys.SPF.solved
    · simp only [get_linedata, hs, Bool.not_true, Bool.false_eq_true,
        if_false] at hc
      injection hc with hc
      subst hc
      have hrows : ∀ r ∈ (pyZip (lineCols sys dec)).mergeSort rowLe,
          r.length = 9 := fun r hr => by
        rw [pyZip_mem_length (List.mem_mergeSort.mp hr), lineCols_count]
      constructor
      · by_cases hsr : (pyZip (lineCols sys dec)).mergeSort rowLe = []
        · left
          rw [hsr]
          rfl
        · right
          exact pyZip_length_uniform hsr hrows
      · intro hwf hn
        have hrlen : (pyZip (lineCols sys dec)).length = sys.Line.n :=
          pyZip_length_uniform (by simp [lineCols])
            (lineCols_lengths sys dec hwf)
        have hsr : (pyZip (lineCols sys dec)).mergeSort rowLe ≠ [] := by
          intro h0
          have hlen : ((pyZip (lineCols sys dec)).mergeSort rowLe).length =
              (pyZip (lineCols sys dec)).length :=
            List.length_mergeSort (pyZip (lineCols sys dec))
          rw [h0, hrlen] at hlen
          simp at hlen
          omega
        exact pyZip_length_uniform hsr hrows
    · simp only [Bool.not_eq_true] at hs
      simp [get_linedata, hs] at hc

/-- Witness for `check_islands_noslack_classification` on the four-bus
sample system: island 0 (positions `[2, 3]`) holds no slack device and is
classified no-slack; the no-slack diagnostic carries count 1. -/
theorem check_islands_noslack_classification_witness :
    sysC6.hasLine = true ∧
    (connectivity sysC6.Bus.n (lineEdges sysC6)).2[0]? = some [2, 3] ∧
    (0 ∈ (classifyIslands (connectivity sysC6.Bus.n (lineEdges sysC6)).2
        (swPositions sysC6)).1 ↔
      slackCount (swPositions sysC6) [2, 3] = 0) ∧
    (LogMsg.noSlackError 1 ∈ (check_islands sysC6).2 ↔
      (1 = (classifyIslands (connectivity sysC6.Bus.n (lineEdges sysC6)).2
          (swPositions sysC6)).1.length ∧ 0 < 1)) :=
  ⟨rfl, by decide,
   ((check_islands_noslack_classification sysC6 rfl).1 0 [2, 3]
      (by decide)).1,
   (check_islands_noslack_classification sysC6 rfl).2 1⟩

/-- Witness for `result_arity`: the unsolved sample system takes the
sentinel branch, and the solved empty-bus sample system takes the success
branch with zero columns. -/
theorem result_arity_witness :
    sysUnsolved.SPF.solved = false ∧
    (get_busdata sysUnsolved 5).1 =
      QueryResult.sentinel (List.replicate 7 false) ∧
    (get_busdata sysSolvedNoBus 5).1 = QueryResult.data [] ∧
    (([] : List (List Value)).length = 0 ∨
      ([] : List (List Value)).length = 8) :=
  ⟨rfl, ((result_arity sysUnsolved 5).1 rfl).1,
   by simp [get_busdata, sysSolvedNoBus, busCols, pyZip],
   ((result_arity sysSolvedNoBus 5).2.1 []
      (by simp [get_busdata, sysSolvedNoBus, busCols, pyZip])).1⟩

end Andes
